import Mathlib

/-!
A shallow embedding of the Todo application in `src/src/App.tsx` and proofs of
its stated behavioural properties.

The component keeps its entire state in React hooks; we model that state as the
structure `AppState`. Each event handler (`fetchTodos`, `addTodo`,
`toggleComplete`, `removeTodo`, the stopwatch buttons) becomes a pure function
from the state and the remote store's response to the next state. The Supabase
response `{ data, error }` is modelled by `StoreResult`. JavaScript array
indexing out of bounds yields `undefined` and the subsequent property access
throws; handlers that index the list therefore return `Option AppState`, with
`none` marking the states in which the original code would throw a `TypeError`.
-/

/-- A task record, as stored in the `todos` table and held in component state. -/
structure Todo where
  id : Int
  text : String
  description : String
  completed : Bool
  time : String
deriving Repr, DecidableEq

/-- The row `addTodo` submits to the store; the store assigns the `id`. -/
structure TodoInsert where
  text : String
  description : String
  completed : Bool
  time : String
deriving Repr, DecidableEq

/-- The outcome of one remote-store call: the returned data, or an error
carrying the store client's message. Mirrors the Supabase `{ data, error }`
destructuring at each call site. -/
inductive StoreResult (α : Type) where
  | ok (data : α)
  | err (msg : String)
deriving Repr, DecidableEq

/-- The component state: the hooks `todos`, `input`, `description`, `darkMode`,
`stopwatchTime` and `isRunning`. (`currentTime` is purely presentational and
carries no behaviour of its own, so it is omitted.) -/
structure AppState where
  todos : List Todo
  input : String
  description : String
  darkMode : Bool
  stopwatchTime : Nat
  isRunning : Bool
deriving Repr, DecidableEq

/-- The initial values passed to `useState`. -/
def initState : AppState :=
  { todos := [], input := "", description := "", darkMode := true,
    stopwatchTime := 0, isRunning := false }

/-- An ordering clause of a select query, as in `.order('id', { ascending: false })`. -/
structure OrderSpec where
  column : String
  ascending : Bool
deriving Repr, DecidableEq

/-- The ordering `fetchTodos` requests from the store. -/
def fetchOrder : OrderSpec := { column := "id", ascending := false }

/-- Handler `fetchTodos`: on error the handler only logs, leaving the state untouched;
on success `setTodos(data)` replaces the list with the fetched rows. -/
def fetchTodos (s : AppState) (resp : StoreResult (List Todo)) : AppState :=
  match resp with
  | .err _ => s
  | .ok data => { s with todos := data }

/-- JavaScript `String.prototype.trim`: strip leading and trailing whitespace.
(Defined over the character list so that it evaluates in the kernel; Lean's
built-in `String.trim` is extensionally the same on ASCII whitespace.) -/
def jsTrim (s : String) : String :=
  String.mk (((s.data.dropWhile Char.isWhitespace).reverse.dropWhile Char.isWhitespace).reverse)

/-- The row `addTodo` submits, or `none` when the trimmed title is empty and no
store call is made at all. -/
def addTodoRequest (s : AppState) (time : String) : Option TodoInsert :=
  if jsTrim s.input ≠ "" then
    some { text := jsTrim s.input, description := jsTrim s.description,
           completed := false, time := time }
  else none

/-- Handler `addTodo`: a no-op when the trimmed title is empty; on store error the
handler only logs; on success the returned rows are prepended
(`setTodos([...data, ...todos])`) and both text inputs are cleared. -/
def addTodo (s : AppState) (time : String) (resp : StoreResult (List Todo)) : AppState :=
  if jsTrim s.input ≠ "" then
    match resp with
    | .err _ => s
    | .ok data => { s with todos := data ++ s.todos, input := "", description := "" }
  else s

/-- The row the store echoes back for a successful insert: the submitted row
with the freshly assigned id. -/
def assignId (id : Int) (r : TodoInsert) : Todo :=
  { id := id, text := r.text, description := r.description,
    completed := r.completed, time := r.time }

/-- Handler `toggleComplete`: reads `todos[index]` (a `TypeError` in the original code
when the index is out of bounds, hence the outer `none`), sends the flipped
flag keyed by the row's id, and on success writes `data[0]` back at `index`.
The inner `none` marks `data` coming back empty, where the original code would
store `undefined` — a value outside the `Todo` type — in the array. -/
def toggleComplete (s : AppState) (index : Nat) (resp : StoreResult (List Todo)) :
    Option AppState :=
  match s.todos[index]? with
  | none => none
  | some _ =>
    match resp with
    | .err _ => some s
    | .ok data =>
      match data[0]? with
      | none => none
      | some row => some { s with todos := s.todos.set index row }

/-- The row the store echoes for `update({ completed: !todo.completed })` on
the row `t`: the stored row with its flag flipped. -/
def echoToggle (t : Todo) : Todo := { t with completed := !t.completed }

/-- The JavaScript `Array.prototype.filter` restricted to an index predicate, as used in
`removeTodo` via `todos.filter((_, i) => i !== index)`; `k` is the index of the
head of the remaining list. -/
def filterWithIndex (p : Nat → Bool) : Nat → List Todo → List Todo
  | _, [] => []
  | k, t :: ts =>
    if p k then t :: filterWithIndex p (k + 1) ts else filterWithIndex p (k + 1) ts

/-- Handler `removeTodo`: reads `todos[index]` (a `TypeError` when out of bounds, hence
`none`), issues a delete keyed by the row's id, and on success drops position
`index` from the local list. -/
def removeTodo (s : AppState) (index : Nat) (resp : StoreResult Unit) : Option AppState :=
  match s.todos[index]? with
  | none => none
  | some _ =>
    match resp with
    | .err _ => some s
    | .ok _ => some { s with todos := filterWithIndex (fun i => i != index) 0 s.todos }

/-- JavaScript `padStart(2, chr 48)` on a string: pad on the left
with zeros up to length 2, returning longer strings unchanged. -/
def padStart2 (s : String) : String :=
  if s.length < 2 then String.mk (List.replicate (2 - s.length) '0') ++ s else s

/-- Helper `formatStopwatch`: minutes are `Math.floor(seconds / 60)` (here plain `Nat`
division), seconds are `seconds % 60`, both rendered and zero-padded. -/
def formatStopwatch (seconds : Nat) : String :=
  padStart2 (Nat.repr (seconds / 60)) ++ ":" ++ padStart2 (Nat.repr (seconds % 60))

/-- The Start button: `setIsRunning(true)`. -/
def startStopwatch (s : AppState) : AppState := { s with isRunning := true }

/-- The Pause button: `setIsRunning(false)`. -/
def pauseStopwatch (s : AppState) : AppState := { s with isRunning := false }

/-- The Reset button: `setIsRunning(false); setStopwatchTime(0)`. -/
def resetStopwatch (s : AppState) : AppState :=
  { s with isRunning := false, stopwatchTime := 0 }

/-- Modelled from the spec: elapsed seconds rendered as `MM:SS`, each component
zero-padded to two digits, the minutes continuing past 59 without bound. -/
def mmssSpec (n : Nat) : String :=
  (if n / 60 < 10 then "0" ++ Nat.repr (n / 60) else Nat.repr (n / 60)) ++ ":" ++
  (if n % 60 < 10 then "0" ++ Nat.repr (n % 60) else Nat.repr (n % 60))

/-! ### Auxiliary lemmas -/

theorem le_length_toDigitsCore (b : Nat) :
    ∀ (f n : Nat) (l : List Char), l.length ≤ (Nat.toDigitsCore b f n l).length := by
  intro f
  induction f with
  | zero => intro n l; simp [Nat.toDigitsCore]
  | succ f ih =>
    intro n l
    simp only [Nat.toDigitsCore]
    split
    · simp
    · exact Nat.le_trans (by simp) (ih _ _)

theorem succ_le_length_toDigitsCore (b f n : Nat) (l : List Char) :
    l.length + 1 ≤ (Nat.toDigitsCore b (f + 1) n l).length := by
  simp only [Nat.toDigitsCore]
  split
  · simp
  · exact Nat.le_trans (by simp) (le_length_toDigitsCore b f _ _)

theorem two_le_repr_length (m : Nat) (h : 10 ≤ m) : 2 ≤ (Nat.repr m).length := by
  have hne : ¬ m / 10 = 0 := by
    have h1 : 1 ≤ m / 10 := (Nat.one_le_div_iff (by norm_num)).mpr h
    omega
  show 2 ≤ (List.asString (Nat.toDigits 10 m)).length
  have hlen : (List.asString (Nat.toDigits 10 m)).length = (Nat.toDigits 10 m).length := rfl
  rw [hlen]
  obtain ⟨k, hk⟩ : ∃ k, m = k + 1 := ⟨m - 1, by omega⟩
  show 2 ≤ (Nat.toDigitsCore 10 (m + 1) m []).length
  conv =>
    lhs
  rw [show Nat.toDigitsCore 10 (m + 1) m [] =
        Nat.toDigitsCore 10 m (m / 10) [Nat.digitChar (m % 10)] by
      conv =>
        lhs
        simp only [Nat.toDigitsCore]
      rw [if_neg hne]]
  rw [hk]
  exact Nat.le_trans (by simp) (succ_le_length_toDigitsCore 10 k _ _)

theorem repr_length_of_lt_ten (m : Nat) (h : m < 10) : (Nat.repr m).length = 1 := by
  interval_cases m <;> rfl

theorem padStart2_repr (m : Nat) :
    padStart2 (Nat.repr m) = if m < 10 then "0" ++ Nat.repr m else Nat.repr m := by
  by_cases h : m < 10
  · have h1 := repr_length_of_lt_ten m h
    rw [padStart2, if_pos (by rw [h1]; norm_num), if_pos h, h1]
    rfl
  · have h2 := two_le_repr_length m (by omega)
    rw [padStart2, if_neg (by omega), if_neg h]

theorem filterWithIndex_of_lt (i : Nat) :
    ∀ (l : List Todo) (k : Nat), i < k → filterWithIndex (fun j => j != i) k l = l := by
  intro l
  induction l with
  | nil => intro k hk; rfl
  | cons t ts ih =>
    intro k hk
    rw [filterWithIndex, if_pos (by simp; omega), ih (k + 1) (by omega)]

theorem filterWithIndex_shift (i : Nat) :
    ∀ (l : List Todo) (k : Nat),
      filterWithIndex (fun j => j != i + 1) (k + 1) l = filterWithIndex (fun j => j != i) k l := by
  intro l
  induction l with
  | nil => intro k; rfl
  | cons t ts ih =>
    intro k
    rw [filterWithIndex, filterWithIndex, ih (k + 1)]
    by_cases hk : k = i
    · rw [if_neg (by simp [hk]), if_neg (by simp [hk])]
    · rw [if_pos (by simp; omega), if_pos (by simp; omega)]

theorem filterWithIndex_eq_eraseIdx :
    ∀ (l : List Todo) (i : Nat), filterWithIndex (fun j => j != i) 0 l = l.eraseIdx i := by
  intro l
  induction l with
  | nil => intro i; cases i <;> rfl
  | cons t ts ih =>
    intro i
    cases i with
    | zero =>
      rw [filterWithIndex, if_neg (by simp), filterWithIndex_of_lt 0 ts 1 (by omega)]
      rfl
    | succ i =>
      rw [filterWithIndex, if_pos (by simp), filterWithIndex_shift i ts 0, ih i]
      rfl

/-! ### Claims -/

/-- C1: when the trimmed title is non-empty, a successful Create submits one
row and prepends the single server-echoed record, whose title is the trimmed
input, whose flag is false and whose description is the trimmed description. -/
theorem addTodo_success_prepends (s : AppState) (time : String) (id : Int)
    (h : jsTrim s.input ≠ "") :
    ∃ req, addTodoRequest s time = some req ∧
      addTodo s time (.ok [assignId id req]) =
        { s with todos := assignId id req :: s.todos, input := "", description := "" } ∧
      (assignId id req).text = jsTrim s.input ∧
      (assignId id req).completed = false ∧
      (assignId id req).description = jsTrim s.description := by
  refine ⟨{ text := jsTrim s.input, description := jsTrim s.description,
            completed := false, time := time }, ?_, ?_, rfl, rfl, rfl⟩
  · rw [addTodoRequest, if_pos h]
  · rw [addTodo, if_pos h]
    rfl

theorem addTodo_success_prepends_witness :
    ∃ req, addTodoRequest ⟨[], " buy milk ", " two litres ", true, 0, false⟩ "now" = some req ∧
      addTodo ⟨[], " buy milk ", " two litres ", true, 0, false⟩ "now" (.ok [assignId 7 req]) =
        { (⟨[], " buy milk ", " two litres ", true, 0, false⟩ : AppState) with
            todos := [assignId 7 req], input := "", description := "" } ∧
      (assignId 7 req).text = jsTrim " buy milk " ∧
      (assignId 7 req).completed = false ∧
      (assignId 7 req).description = jsTrim " two litres " :=
  addTodo_success_prepends ⟨[], " buy milk ", " two litres ", true, 0, false⟩ "now" 7
    (by decide)

/-- C2: a store error on Create, Toggle or Delete leaves the whole component
state — list, title input and description input — exactly as it was. -/
theorem store_error_leaves_state (s : AppState) (time e : String) (i : Nat)
    (h : i < s.todos.length) :
    addTodo s time (.err e) = s ∧
    toggleComplete s i (.err e) = some s ∧
    removeTodo s i (.err e) = some s := by
  refine ⟨?_, ?_, ?_⟩
  · simp only [addTodo]; split <;> rfl
  · simp only [toggleComplete, List.getElem?_eq_getElem h]
  · simp only [removeTodo, List.getElem?_eq_getElem h]

theorem store_error_leaves_state_witness :
    addTodo ⟨[⟨1, "a", "", false, "t"⟩], "x", "y", true, 0, false⟩ "now" (.err "boom") =
      ⟨[⟨1, "a", "", false, "t"⟩], "x", "y", true, 0, false⟩ ∧
    toggleComplete ⟨[⟨1, "a", "", false, "t"⟩], "x", "y", true, 0, false⟩ 0 (.err "boom") =
      some ⟨[⟨1, "a", "", false, "t"⟩], "x", "y", true, 0, false⟩ ∧
    removeTodo ⟨[⟨1, "a", "", false, "t"⟩], "x", "y", true, 0, false⟩ 0 (.err "boom") =
      some ⟨[⟨1, "a", "", false, "t"⟩], "x", "y", true, 0, false⟩ :=
  store_error_leaves_state ⟨[⟨1, "a", "", false, "t"⟩], "x", "y", true, 0, false⟩ "now" "boom" 0
    (by decide)

/-- C3: toggling the same in-bounds position twice, the store echoing the
flipped row each time, restores the completion flag at that position. -/
theorem toggle_twice_restores (s : AppState) (i : Nat) (t : Todo)
    (h : s.todos[i]? = some t) :
    ∃ s2, (toggleComplete s i (.ok [echoToggle t])).bind
        (fun s1 => toggleComplete s1 i (.ok [echoToggle (echoToggle t)])) = some s2 ∧
      s2.todos[i]?.map Todo.completed = some t.completed := by
  have hlt : i < s.todos.length := by
    by_contra hc
    rw [List.getElem?_eq_none (by omega)] at h
    exact Option.noConfusion h
  have h2 : (s.todos.set i (echoToggle t))[i]? = some (echoToggle t) :=
    List.getElem?_set_eq_of_lt _ (by simpa using hlt)
  refine ⟨{ s with todos := (s.todos.set i (echoToggle t)).set i (echoToggle (echoToggle t)) },
          ?_, ?_⟩
  · simp [toggleComplete, h, h2]
  · have h3 : ((s.todos.set i (echoToggle t)).set i (echoToggle (echoToggle t)))[i]? =
        some (echoToggle (echoToggle t)) :=
      List.getElem?_set_eq_of_lt _ (by simpa using hlt)
    rw [h3]
    simp [echoToggle]

theorem toggle_twice_restores_witness :
    ∃ s2, (toggleComplete ⟨[⟨1, "a", "", false, "t"⟩], "", "", true, 0, false⟩ 0
        (.ok [echoToggle ⟨1, "a", "", false, "t"⟩])).bind
        (fun s1 => toggleComplete s1 0 (.ok [echoToggle (echoToggle ⟨1, "a", "", false, "t"⟩)])) =
          some s2 ∧
      s2.todos[0]?.map Todo.completed = some (Todo.mk 1 "a" "" false "t").completed :=
  toggle_twice_restores ⟨[⟨1, "a", "", false, "t"⟩], "", "", true, 0, false⟩ 0
    ⟨1, "a", "", false, "t"⟩ (by decide)

/-- C4: a successful Toggle at an in-bounds position replaces exactly that
position with the echoed row (flag flipped), keeps every other position
unchanged, and keeps the length. -/
theorem toggle_success_frame (s : AppState) (i : Nat) (t : Todo)
    (h : s.todos[i]? = some t) :
    ∃ s1, toggleComplete s i (.ok [echoToggle t]) = some s1 ∧
      s1.todos.length = s.todos.length ∧
      s1.todos[i]? = some (echoToggle t) ∧
      (echoToggle t).completed = !t.completed ∧
      ∀ j, j ≠ i → s1.todos[j]? = s.todos[j]? := by
  have hlt : i < s.todos.length := by
    by_contra hc
    rw [List.getElem?_eq_none (by omega)] at h
    exact Option.noConfusion h
  refine ⟨{ s with todos := s.todos.set i (echoToggle t) }, ?_, by simp, ?_, rfl, ?_⟩
  · simp only [toggleComplete, h, List.getElem?_cons_zero]
  · exact List.getElem?_set_eq_of_lt _ (by simpa using hlt)
  · intro j hj
    exact List.getElem?_set_ne (by omega)

theorem toggle_success_frame_witness :
    ∃ s1, toggleComplete ⟨[⟨2, "a", "", false, "t"⟩, ⟨1, "b", "", true, "u"⟩], "", "", true, 0,
        false⟩ 0 (.ok [echoToggle ⟨2, "a", "", false, "t"⟩]) = some s1 ∧
      s1.todos.length = ([⟨2, "a", "", false, "t"⟩, ⟨1, "b", "", true, "u"⟩] : List Todo).length ∧
      s1.todos[0]? = some (echoToggle ⟨2, "a", "", false, "t"⟩) ∧
      (echoToggle ⟨2, "a", "", false, "t"⟩).completed = !(Todo.mk 2 "a" "" false "t").completed ∧
      ∀ j, j ≠ 0 → s1.todos[j]? =
        ([⟨2, "a", "", false, "t"⟩, ⟨1, "b", "", true, "u"⟩] : List Todo)[j]? :=
  toggle_success_frame ⟨[⟨2, "a", "", false, "t"⟩, ⟨1, "b", "", true, "u"⟩], "", "", true, 0,
    false⟩ 0 ⟨2, "a", "", false, "t"⟩ (by decide)

/-- C5: a successful Delete at an in-bounds position removes exactly the
record at that position and shortens the list by one. -/
theorem remove_success (s : AppState) (i : Nat) (h : i < s.todos.length) :
    ∃ s1, removeTodo s i (.ok ()) = some s1 ∧
      s1.todos = s.todos.take i ++ s.todos.drop (i + 1) ∧
      s1.todos.length + 1 = s.todos.length := by
  refine ⟨{ s with todos := filterWithIndex (fun j => j != i) 0 s.todos }, ?_, ?_, ?_⟩
  · simp only [removeTodo, List.getElem?_eq_getElem h]
  · show filterWithIndex (fun j => j != i) 0 s.todos = _
    rw [filterWithIndex_eq_eraseIdx, List.eraseIdx_eq_take_drop_succ]
  · show (filterWithIndex (fun j => j != i) 0 s.todos).length + 1 = _
    rw [filterWithIndex_eq_eraseIdx]
    exact List.length_eraseIdx_add_one h

theorem remove_success_witness :
    ∃ s1, removeTodo ⟨[⟨2, "a", "", false, "t"⟩, ⟨1, "b", "", true, "u"⟩], "", "", true, 0,
        false⟩ 0 (.ok ()) = some s1 ∧
      s1.todos = ([⟨2, "a", "", false, "t"⟩, ⟨1, "b", "", true, "u"⟩] : List Todo).take 0 ++
        ([⟨2, "a", "", false, "t"⟩, ⟨1, "b", "", true, "u"⟩] : List Todo).drop 1 ∧
      s1.todos.length + 1 =
        ([⟨2, "a", "", false, "t"⟩, ⟨1, "b", "", true, "u"⟩] : List Todo).length :=
  remove_success ⟨[⟨2, "a", "", false, "t"⟩, ⟨1, "b", "", true, "u"⟩], "", "", true, 0, false⟩ 0
    (by decide)

/-- C6: a blank (empty-after-trim) title makes Create a complete no-op: no
request is built and the state is returned unchanged whatever the store would
have answered. -/
theorem addTodo_blank_noop (s : AppState) (time : String) (resp : StoreResult (List Todo))
    (h : jsTrim s.input = "") :
    addTodo s time resp = s ∧ addTodoRequest s time = none := by
  constructor
  · rw [addTodo.eq_def, if_neg (by simp [h])]
  · rw [addTodoRequest, if_neg (by simp [h])]

theorem addTodo_blank_noop_witness :
    addTodo ⟨[⟨1, "a", "", false, "t"⟩], "   ", "d", true, 0, false⟩ "now" (.ok []) =
      ⟨[⟨1, "a", "", false, "t"⟩], "   ", "d", true, 0, false⟩ ∧
    addTodoRequest ⟨[⟨1, "a", "", false, "t"⟩], "   ", "d", true, 0, false⟩ "now" = none :=
  addTodo_blank_noop ⟨[⟨1, "a", "", false, "t"⟩], "   ", "d", true, 0, false⟩ "now" (.ok [])
    (by decide)

/-- C7: the stopwatch renders any number of elapsed seconds as zero-padded
MM:SS with unbounded minutes, matching the spec rendering `mmssSpec` on every
input, and agreeing with the four quoted examples. -/
theorem formatStopwatch_mmss :
    (∀ n : Nat, formatStopwatch n = mmssSpec n) ∧
    formatStopwatch 0 = "00:00" ∧ formatStopwatch 65 = "01:05" ∧
    formatStopwatch 3599 = "59:59" ∧ formatStopwatch 3600 = "60:00" := by
  refine ⟨?_, by decide, by decide, by decide, by decide⟩
  intro n
  rw [formatStopwatch, mmssSpec, padStart2_repr, padStart2_repr]

/-- C8: Reset always yields elapsed 0 and a stopped stopwatch, whatever the
prior state. -/
theorem reset_stopwatch_spec (s : AppState) :
    (resetStopwatch s).stopwatchTime = 0 ∧ (resetStopwatch s).isRunning = false :=
  ⟨rfl, rfl⟩

/-- C9: Load asks the store for all rows ordered by id descending; on success
the fetched rows replace the local list exactly and in order; on failure the
list stays as it was — empty, at the initial state in which Load runs. -/
theorem fetch_replaces_or_leaves_empty :
    (∀ (s : AppState) (data : List Todo), (fetchTodos s (.ok data)).todos = data) ∧
    (∀ e : String, (fetchTodos initState (.err e)).todos = []) ∧
    fetchOrder.column = "id" ∧ fetchOrder.ascending = false :=
  ⟨fun _ _ => rfl, fun _ => rfl, rfl, rfl⟩

/-- C10: Toggle and Delete look the index up without a bounds check: exactly
when the index is in bounds does the lookup succeed and the operation proceed;
out of bounds, both handlers hit the failure branch of the lookup. -/
theorem index_bounds_required (s : AppState) (i : Nat) :
    (∀ e : String, (toggleComplete s i (.err e)).isSome ↔ i < s.todos.length) ∧
    (∀ (row : Todo) (rest : List Todo),
      (toggleComplete s i (.ok (row :: rest))).isSome ↔ i < s.todos.length) ∧
    (∀ r : StoreResult Unit, (removeTodo s i r).isSome ↔ i < s.todos.length) := by
  by_cases h : i < s.todos.length
  · refine ⟨fun e => ?_, fun row rest => ?_, fun r => ?_⟩
    · simp [toggleComplete, List.getElem?_eq_getElem h, h]
    · simp [toggleComplete, List.getElem?_eq_getElem h, h]
    · cases r <;> simp [removeTodo, List.getElem?_eq_getElem h, h]
  · have hn : s.todos[i]? = none := List.getElem?_eq_none (by omega)
    refine ⟨fun e => ?_, fun row rest => ?_, fun r => ?_⟩
    · simp [toggleComplete, hn, h]
    · simp [toggleComplete, hn, h]
    · simp [removeTodo, hn, h]
